import Mathlib

/-!
Verification of the Scheme Eligibility Matching & Recommendation Engine of the
AgriSahayak web application.  The definitions below are a shallow embedding of
the JavaScript eligibility-wizard code (the `eligibilityQuestions` / `SCHEMES`
data and the functions `toggleEligibilityOption`, `saveEligibilityAnswer`,
`selectEligibilityOption`, `nextEligibilityStep`, `prevEligibilityStep` and
`showEligibilityResults`).  The wizard state that the source keeps in the
globals `eligibilityStep` / `eligibilityAnswers` is passed explicitly; DOM
rendering and the `alert` call are ignored except for the control flow they
witness.  JavaScript numbers only ever receive small integer increments here,
so scores are embedded as `Int`; JS `Array.prototype.sort`, stable per the
ECMAScript specification, is embedded as `List.mergeSort`.
-/

namespace AgriSahayak

/-- A value stored in the answer object: single-select questions store a
string, multi-select questions store an array of strings. -/
inductive AnswerValue where
  | single (value : String)
  | multi (values : List String)
deriving DecidableEq

/-- The `eligibilityAnswers` object: a mapping from question id to the stored
answer.  Embedded as an association list where the most recent binding for a
key shadows older ones (JS property assignment overwrites). -/
abbrev AnswerStore := List (String × AnswerValue)

/-- Property read `eligibilityAnswers[qid]`; `none` plays the role of
JavaScript `undefined`. -/
def getAnswer (st : AnswerStore) (qid : String) : Option AnswerValue :=
  (st.find? (fun p => p.1 == qid)).map (fun p => p.2)

/-- Property write `eligibilityAnswers[qid] = v`. -/
def setAnswer (st : AnswerStore) (qid : String) (v : AnswerValue) : AnswerStore :=
  (qid, v) :: st

/-- Question types appearing in `eligibilityQuestions`: a `<select>` dropdown,
a single-choice option grid, or a multi-choice option grid. -/
inductive QuestionType where
  | select
  | options
  | multi
deriving DecidableEq

/-- One entry of `eligibilityQuestions`: id, question text, type and the
ordered `(value, label)` option pairs. -/
structure Question where
  id : String
  question : String
  qtype : QuestionType
  options : List (String × String)
deriving DecidableEq

/-- The `eligibilityQuestions` array from the source. -/
def eligibilityQuestions : List Question :=
  [ { id := "land_size",
      question := "What is your total agricultural land holding?",
      qtype := QuestionType.select,
      options := [("marginal", "Less than 1 hectare (Marginal)"),
                  ("small", "1-2 hectares (Small)"),
                  ("medium", "2-4 hectares (Medium)"),
                  ("large", "More than 4 hectares (Large)")] },
    { id := "farmer_type",
      question := "What is your farming status?",
      qtype := QuestionType.options,
      options := [("owner", "Owner Cultivator"),
                  ("tenant", "Tenant Farmer"),
                  ("sharecropper", "Sharecropper"),
                  ("landless", "Landless Laborer")] },
    { id := "age",
      question := "What is your age group?",
      qtype := QuestionType.options,
      options := [("18-30", "18-30 years"),
                  ("30-40", "30-40 years"),
                  ("40-60", "40-60 years"),
                  ("60+", "Above 60 years")] },
    { id := "interests",
      question := "What are you looking for? (Select all that apply)",
      qtype := QuestionType.multi,
      options := [("credit", "Credit/Loan"),
                  ("insurance", "Crop Insurance"),
                  ("subsidy", "Subsidies"),
                  ("pension", "Pension"),
                  ("irrigation", "Irrigation"),
                  ("organic", "Organic Farming")] },
    { id := "category",
      question := "Do you belong to any special category?",
      qtype := QuestionType.options,
      options := [("general", "General"),
                  ("sc", "SC (Scheduled Caste)"),
                  ("st", "ST (Scheduled Tribe)"),
                  ("obc", "OBC"),
                  ("woman", "Woman Farmer")] } ]

/-- The identifiers of the Question Set. -/
def questionIds : List String := eligibilityQuestions.map (fun q => q.id)

/-- Wizard state: the globals `eligibilityStep` and `eligibilityAnswers`. -/
structure WizardState where
  eligibilityStep : Nat
  eligibilityAnswers : AnswerStore
deriving DecidableEq

/-- The state installed by `startEligibilityCheck()`: step 0, empty answers. -/
def startEligibilityCheck : WizardState :=
  { eligibilityStep := 0, eligibilityAnswers := [] }

/-- The body of `toggleValue` in `toggleEligibilityOption`: JS looks up
`indexOf(value)` and either `splice`s out that first occurrence or `push`es
the value at the end. -/
def toggleValue (vs : List String) (value : String) : List String :=
  if value ∈ vs then vs.erase value else vs ++ [value]

/-- The store mutation of `toggleEligibilityOption(questionId, value)`.
The source first replaces a falsy entry (`undefined`, or the falsy empty
string) with `[]`, then toggles membership of `value` in the array.  If the
entry were a non-empty string, the `push` / `splice` array calls would throw
a TypeError, which `none` models; the wizard never stores a string under a
multi-select question id, so that branch is unreachable in the application. -/
def toggleEligibilityOption (st : AnswerStore) (questionId value : String) :
    Option AnswerStore :=
  match getAnswer st questionId with
  | none =>
      some (setAnswer st questionId (AnswerValue.multi (toggleValue [] value)))
  | some (AnswerValue.multi vs) =>
      some (setAnswer st questionId (AnswerValue.multi (toggleValue vs value)))
  | some (AnswerValue.single s) =>
      if s = "" then
        some (setAnswer st questionId (AnswerValue.multi (toggleValue [] value)))
      else
        none

/-- The store mutation of `saveEligibilityAnswer(questionId, value)`:
`eligibilityAnswers[questionId] = value`, unconditionally. -/
def saveEligibilityAnswer (st : AnswerStore) (questionId value : String) :
    AnswerStore :=
  setAnswer st questionId (AnswerValue.single value)

/-- The store mutation of `selectEligibilityOption(questionId, value, el)`:
identical to `saveEligibilityAnswer` (the rest of it only updates CSS
classes). -/
def selectEligibilityOption (st : AnswerStore) (questionId value : String) :
    AnswerStore :=
  setAnswer st questionId (AnswerValue.single value)

/-- The validation test of `nextEligibilityStep`:
`!eligibilityAnswers[q.id] || (Array.isArray(...) && ....length === 0)`.
A missing entry and the empty string are falsy; an array is always truthy but
fails when empty. -/
def answerMissing (st : AnswerStore) (qid : String) : Bool :=
  match getAnswer st qid with
  | none => true
  | some (AnswerValue.single s) => s == ""
  | some (AnswerValue.multi vs) => vs.isEmpty

/-- Outcome of one `nextEligibilityStep()` call: the validation `alert` (no
state change), a move to the next question, or the final call of
`showEligibilityResults()`. -/
inductive StepOutcome where
  | validationError
  | advanced
  | completed
deriving DecidableEq

/-- `nextEligibilityStep()`.  Reads the current question; with the step out of
range the source would throw reading `q.id` of `undefined` (modelled by
`none`, unreachable in the application).  If the current answer is missing it
alerts and returns without touching any state; otherwise it either increments
`eligibilityStep` or, on the last question, shows the results. -/
def nextEligibilityStep (w : WizardState) : Option (StepOutcome × WizardState) :=
  match eligibilityQuestions.get? w.eligibilityStep with
  | none => none
  | some q =>
      if answerMissing w.eligibilityAnswers q.id then
        some (StepOutcome.validationError, w)
      else if w.eligibilityStep < eligibilityQuestions.length - 1 then
        some (StepOutcome.advanced,
              { w with eligibilityStep := w.eligibilityStep + 1 })
      else
        some (StepOutcome.completed, w)

/-- `prevEligibilityStep()`: decrement the step if positive, otherwise do
nothing. -/
def prevEligibilityStep (w : WizardState) : WizardState :=
  if 0 < w.eligibilityStep then
    { w with eligibilityStep := w.eligibilityStep - 1 }
  else w

/-- One record of the `SCHEMES` catalog.  Only the fields the engine reads
(`id`) and the identifying descriptive fields (`name`, `category`) are
embedded; the remaining fields (descriptions, benefit lists, documents,
links) are presentation data never read by the evaluator. -/
structure Scheme where
  id : String
  name : String
  category : String
deriving DecidableEq

/-- The `SCHEMES` catalog, in its source declaration order. -/
def SCHEMES : List Scheme :=
  [ { id := "pmfby", name := "PM Fasal Bima Yojana", category := "Insurance" },
    { id := "pmkisan", name := "PM-KISAN Samman Nidhi", category := "Subsidy" },
    { id := "kcc", name := "Kisan Credit Card (KCC)", category := "Credit" },
    { id := "pmksy", name := "PM Krishi Sinchayee Yojana", category := "Irrigation" },
    { id := "soil", name := "Soil Health Card Scheme", category := "Subsidy" },
    { id := "enam", name := "e-NAM (National Agriculture Market)", category := "Market" },
    { id := "pkvy", name := "Paramparagat Krishi Vikas Yojana", category := "Organic" },
    { id := "pmkmy", name := "PM Kisan Maandhan Yojana", category := "Pension" },
    { id := "aif", name := "Agriculture Infrastructure Fund", category := "Credit" },
    { id := "pmfme", name := "PM Formalisation of Micro Food Enterprises", category := "Subsidy" },
    { id := "smam", name := "Sub-Mission on Agricultural Mechanization", category := "Subsidy" },
    { id := "rkvy", name := "Rashtriya Krishi Vikas Yojana", category := "Subsidy" },
    { id := "nfsm", name := "National Food Security Mission", category := "Subsidy" },
    { id := "midh", name := "Mission for Integrated Development of Horticulture", category := "Horticulture" },
    { id := "acabc", name := "Agri-Clinics & Agri-Business Centres", category := "Credit" },
    { id := "nmsa", name := "National Mission for Sustainable Agriculture", category := "Climate" },
    { id := "deds", name := "Dairy Entrepreneurship Development Scheme", category := "Dairy" },
    { id := "gobar", name := "GOBAR-Dhan (Galvanizing Organic Bio-Agro Resources)", category := "Organic" } ]

/-- Single-valued read of an answer, as compared with `===` / `includes`
against strings in the source: an absent entry or an array entry never equals
a string. -/
def strAnswer (st : AnswerStore) (qid : String) : Option String :=
  match getAnswer st qid with
  | some (AnswerValue.single s) => some s
  | _ => none

/-- The pattern `[v1, v2].includes(answers.qid)` from the source. -/
def answerIn (st : AnswerStore) (qid : String) (vals : List String) : Bool :=
  match strAnswer st qid with
  | some s => vals.contains s
  | none => false

/-- The interest list `answers.interests`, as read through
`answers.interests?.includes(x)` and `(answers.interests || [])`.  The wizard
only ever stores an array under `interests`; an absent entry contributes no
interests.  (A string entry could only arise outside the wizard flow and
would make the later `forEach` throw; it is modelled as no interests.) -/
def interestsOf (st : AnswerStore) : List String :=
  match getAnswer st "interests" with
  | some (AnswerValue.multi vs) => vs
  | _ => []

/-- One entry of the `results` array of `showEligibilityResults`. -/
structure EvalResult where
  scheme : Scheme
  eligible : Bool
  reasons : List String
  matchScore : Int
deriving DecidableEq

/-- The `PM-KISAN: Small & marginal farmers only` block. -/
def stepPmkisan (a : AnswerStore) (r : EvalResult) : EvalResult :=
  if r.scheme.id == "pmkisan" then
    if answerIn a "land_size" ["large", "medium"] then
      { r with eligible := false,
               reasons := r.reasons ++ ["Land holding exceeds 2 hectares limit"] }
    else
      { r with matchScore := r.matchScore + 20 }
  else r

/-- The `PM-KISAN Maandhan: Age 18-40, land up to 2 hectares` block. -/
def stepPmkmy (a : AnswerStore) (r : EvalResult) : EvalResult :=
  if r.scheme.id == "pmkmy" then
    let r1 :=
      if !answerIn a "age" ["18-30", "30-40"] then
        { r with eligible := false,
                 reasons := r.reasons ++ ["Age must be between 18-40 years to enroll"] }
      else r
    let r2 :=
      if answerIn a "land_size" ["large", "medium"] then
        { r1 with eligible := false,
                  reasons := r1.reasons ++ ["Land holding exceeds 2 hectares limit"] }
      else r1
    if (interestsOf a).contains "pension" then
      { r2 with matchScore := r2.matchScore + 30 }
    else r2
  else r

/-- The `KCC: All farmer types eligible` block. -/
def stepKcc (a : AnswerStore) (r : EvalResult) : EvalResult :=
  if r.scheme.id == "kcc" then
    let r1 :=
      if strAnswer a "farmer_type" == some "landless" then
        { r with eligible := false,
                 reasons := r.reasons ++ ["Must be owner/tenant/sharecropper"] }
      else r
    if (interestsOf a).contains "credit" then
      { r1 with matchScore := r1.matchScore + 30 }
    else r1
  else r

/-- The `PMFBY: All farmers` block. -/
def stepPmfby (a : AnswerStore) (r : EvalResult) : EvalResult :=
  if r.scheme.id == "pmfby" then
    if (interestsOf a).contains "insurance" then
      { r with matchScore := r.matchScore + 30 }
    else r
  else r

/-- The `PMKSY: Irrigation interest` block. -/
def stepPmksy (a : AnswerStore) (r : EvalResult) : EvalResult :=
  if r.scheme.id == "pmksy" then
    if (interestsOf a).contains "irrigation" then
      { r with matchScore := r.matchScore + 30 }
    else r
  else r

/-- The `Organic schemes` block (`pkvy`, `gobar`). -/
def stepOrganicSchemes (a : AnswerStore) (r : EvalResult) : EvalResult :=
  if ["pkvy", "gobar"].contains r.scheme.id then
    if (interestsOf a).contains "organic" then
      { r with matchScore := r.matchScore + 30 }
    else r
  else r

/-- The `SC/ST get higher subsidy in many schemes` block. -/
def stepScSt (a : AnswerStore) (r : EvalResult) : EvalResult :=
  if answerIn a "category" ["sc", "st"] then
    if ["smam", "deds", "midh"].contains r.scheme.id then
      { r with matchScore := r.matchScore + 15,
               reasons := r.reasons ++ ["Higher subsidy rate for SC/ST (33% vs 25%)"] }
    else r
  else r

/-- The `Small/marginal farmers get priority` block. -/
def stepSmallMarginal (a : AnswerStore) (r : EvalResult) : EvalResult :=
  if answerIn a "land_size" ["marginal", "small"] then
    { r with matchScore := r.matchScore + 10 }
  else r

/-- The `interestMap` object of the `Interest-based scoring` block; an
unmapped interest behaves like `undefined?.includes(...)`, i.e. matches no
scheme. -/
def interestMap (interest : String) : List String :=
  if interest == "credit" then ["kcc", "aif", "acabc"]
  else if interest == "insurance" then ["pmfby"]
  else if interest == "subsidy" then ["pmkisan", "soil", "smam", "nfsm", "pmfme", "rkvy"]
  else if interest == "irrigation" then ["pmksy"]
  else if interest == "organic" then ["pkvy", "gobar"]
  else if interest == "pension" then ["pmkmy"]
  else []

/-- The `(answers.interests || []).forEach(...)` loop adding 20 points per
selected interest whose `interestMap` entry lists the scheme. -/
def stepInterestLoop (a : AnswerStore) (r : EvalResult) : EvalResult :=
  (interestsOf a).foldl
    (fun acc interest =>
      if (interestMap interest).contains acc.scheme.id then
        { acc with matchScore := acc.matchScore + 20 }
      else acc)
    r

/-- The per-scheme body of the `SCHEMES.forEach` loop in
`showEligibilityResults`: starting from `eligible = true`, `reasons = []`,
`matchScore = 0`, the rule blocks run in source order. -/
def evalScheme (a : AnswerStore) (scheme : Scheme) : EvalResult :=
  stepInterestLoop a (stepSmallMarginal a (stepScSt a (stepOrganicSchemes a
    (stepPmksy a (stepPmfby a (stepKcc a (stepPmkmy a (stepPmkisan a
      { scheme := scheme, eligible := true, reasons := [], matchScore := 0 }))))))))

/-- The comparator of `results.sort((a, b) => ...)`, read as a boolean
less-or-equal relation: the comparator is `<= 0` exactly when `a` is at least
as eligible as `b`, and on equal eligibility when the score of `a` is at
least that of `b`. -/
def resultLE (a b : EvalResult) : Bool :=
  if a.eligible != b.eligible then a.eligible
  else decide (b.matchScore ≤ a.matchScore)

/-- `showEligibilityResults()` up to its rendering: evaluate every scheme of
the catalog in declaration order, then stably sort by the comparator
(eligible first, then descending score).  `Array.prototype.sort` is stable
per the ECMAScript specification; `List.mergeSort` is its stable model. -/
def showEligibilityResults (answers : AnswerStore) : List EvalResult :=
  (SCHEMES.map (fun s => evalScheme answers s)).mergeSort resultLE

/-! ### Basic store lemmas -/

lemma getAnswer_setAnswer_self (st : AnswerStore) (q : String) (v : AnswerValue) :
    getAnswer (setAnswer st q v) q = some v := by
  simp [getAnswer, setAnswer, List.find?]

lemma getAnswer_setAnswer_ne (st : AnswerStore) (q q2 : String) (v : AnswerValue)
    (h : q ≠ q2) : getAnswer (setAnswer st q v) q2 = getAnswer st q2 := by
  simp [getAnswer, setAnswer, List.find?, beq_eq_false_iff_ne.mpr h]

lemma strAnswer_setAnswer_ne (st : AnswerStore) (q q2 : String) (v : AnswerValue)
    (h : q ≠ q2) : strAnswer (setAnswer st q v) q2 = strAnswer st q2 := by
  simp [strAnswer, getAnswer_setAnswer_ne st q q2 v h]

lemma answerIn_setAnswer_ne (st : AnswerStore) (q q2 : String) (v : AnswerValue)
    (vals : List String) (h : q ≠ q2) :
    answerIn (setAnswer st q v) q2 vals = answerIn st q2 vals := by
  simp [answerIn, strAnswer_setAnswer_ne st q q2 v h]

/-! ### Per-step projection lemmas -/

lemma scheme_stepPmkisan (a : AnswerStore) (r : EvalResult) :
    (stepPmkisan a r).scheme = r.scheme := by
  simp only [stepPmkisan]; split_ifs <;> rfl

lemma scheme_stepPmkmy (a : AnswerStore) (r : EvalResult) :
    (stepPmkmy a r).scheme = r.scheme := by
  simp only [stepPmkmy]; split_ifs <;> rfl

lemma scheme_stepKcc (a : AnswerStore) (r : EvalResult) :
    (stepKcc a r).scheme = r.scheme := by
  simp only [stepKcc]; split_ifs <;> rfl

lemma scheme_stepPmfby (a : AnswerStore) (r : EvalResult) :
    (stepPmfby a r).scheme = r.scheme := by
  simp only [stepPmfby]; split_ifs <;> rfl

lemma scheme_stepPmksy (a : AnswerStore) (r : EvalResult) :
    (stepPmksy a r).scheme = r.scheme := by
  simp only [stepPmksy]; split_ifs <;> rfl

lemma scheme_stepOrganicSchemes (a : AnswerStore) (r : EvalResult) :
    (stepOrganicSchemes a r).scheme = r.scheme := by
  simp only [stepOrganicSchemes]; split_ifs <;> rfl

lemma scheme_stepScSt (a : AnswerStore) (r : EvalResult) :
    (stepScSt a r).scheme = r.scheme := by
  simp only [stepScSt]; split_ifs <;> rfl

lemma scheme_stepSmallMarginal (a : AnswerStore) (r : EvalResult) :
    (stepSmallMarginal a r).scheme = r.scheme := by
  simp only [stepSmallMarginal]; split_ifs <;> rfl

/-- Accumulated-score form of the interest loop: 20 points per selected
interest whose `interestMap` entry lists the scheme id. -/
def loopScore : List String → String → Int
  | [], _ => 0
  | i :: l, sid => (if (interestMap i).contains sid then 20 else 0) + loopScore l sid

lemma loopScore_append (l1 l2 : List String) (sid : String) :
    loopScore (l1 ++ l2) sid = loopScore l1 sid + loopScore l2 sid := by
  induction l1 with
  | nil => simp [loopScore]
  | cons i l ih => simp only [List.cons_append, loopScore, List.append_eq, ih]; ring

lemma loopScore_nonneg (l : List String) (sid : String) : 0 ≤ loopScore l sid := by
  induction l with
  | nil => simp [loopScore]
  | cons i l ih => simp only [loopScore]; split_ifs <;> omega

lemma stepInterestLoop_eq (a : AnswerStore) (r : EvalResult) :
    stepInterestLoop a r
      = { r with matchScore := r.matchScore + loopScore (interestsOf a) r.scheme.id } := by
  simp only [stepInterestLoop]
  generalize interestsOf a = l
  induction l generalizing r with
  | nil => simp [loopScore]
  | cons i l ih =>
      simp only [List.foldl_cons, loopScore]
      split_ifs with h
      · rw [ih]; simp [h]; ring
      · rw [ih]; simp [h]

lemma matchScore_stepPmkisan (a : AnswerStore) (r : EvalResult) :
    (stepPmkisan a r).matchScore = r.matchScore
      + (if r.scheme.id == "pmkisan" && !answerIn a "land_size" ["large", "medium"]
         then 20 else 0) := by
  simp only [stepPmkisan]; split_ifs <;> simp_all

lemma matchScore_stepPmkmy (a : AnswerStore) (r : EvalResult) :
    (stepPmkmy a r).matchScore = r.matchScore
      + (if r.scheme.id == "pmkmy" && (interestsOf a).contains "pension"
         then 30 else 0) := by
  simp only [stepPmkmy]; split_ifs <;> simp_all

lemma matchScore_stepKcc (a : AnswerStore) (r : EvalResult) :
    (stepKcc a r).matchScore = r.matchScore
      + (if r.scheme.id == "kcc" && (interestsOf a).contains "credit"
         then 30 else 0) := by
  simp only [stepKcc]; split_ifs <;> simp_all

lemma matchScore_stepPmfby (a : AnswerStore) (r : EvalResult) :
    (stepPmfby a r).matchScore = r.matchScore
      + (if r.scheme.id == "pmfby" && (interestsOf a).contains "insurance"
         then 30 else 0) := by
  simp only [stepPmfby]; split_ifs <;> simp_all

lemma matchScore_stepPmksy (a : AnswerStore) (r : EvalResult) :
    (stepPmksy a r).matchScore = r.matchScore
      + (if r.scheme.id == "pmksy" && (interestsOf a).contains "irrigation"
         then 30 else 0) := by
  simp only [stepPmksy]; split_ifs <;> simp_all

lemma matchScore_stepOrganicSchemes (a : AnswerStore) (r : EvalResult) :
    (stepOrganicSchemes a r).matchScore = r.matchScore
      + (if ["pkvy", "gobar"].contains r.scheme.id && (interestsOf a).contains "organic"
         then 30 else 0) := by
  simp only [stepOrganicSchemes]; split_ifs <;> simp_all

lemma matchScore_stepScSt (a : AnswerStore) (r : EvalResult) :
    (stepScSt a r).matchScore = r.matchScore
      + (if answerIn a "category" ["sc", "st"] && ["smam", "deds", "midh"].contains r.scheme.id
         then 15 else 0) := by
  simp only [stepScSt]; split_ifs <;> simp_all

lemma matchScore_stepSmallMarginal (a : AnswerStore) (r : EvalResult) :
    (stepSmallMarginal a r).matchScore = r.matchScore
      + (if answerIn a "land_size" ["marginal", "small"] then 10 else 0) := by
  simp only [stepSmallMarginal]; split_ifs <;> simp_all

lemma eligible_stepPmkisan (a : AnswerStore) (r : EvalResult) :
    (stepPmkisan a r).eligible
      = (r.eligible && !(r.scheme.id == "pmkisan" && answerIn a "land_size" ["large", "medium"])) := by
  simp only [stepPmkisan]; split_ifs <;> simp_all

lemma eligible_stepPmkmy (a : AnswerStore) (r : EvalResult) :
    (stepPmkmy a r).eligible
      = (r.eligible && !(r.scheme.id == "pmkmy"
          && (!answerIn a "age" ["18-30", "30-40"] || answerIn a "land_size" ["large", "medium"]))) := by
  simp only [stepPmkmy]; split_ifs <;> simp_all

lemma eligible_stepKcc (a : AnswerStore) (r : EvalResult) :
    (stepKcc a r).eligible
      = (r.eligible && !(r.scheme.id == "kcc" && strAnswer a "farmer_type" == some "landless")) := by
  simp only [stepKcc]; split_ifs <;> simp_all

lemma eligible_stepPmfby (a : AnswerStore) (r : EvalResult) :
    (stepPmfby a r).eligible = r.eligible := by
  simp only [stepPmfby]; split_ifs <;> rfl

lemma eligible_stepPmksy (a : AnswerStore) (r : EvalResult) :
    (stepPmksy a r).eligible = r.eligible := by
  simp only [stepPmksy]; split_ifs <;> rfl

lemma eligible_stepOrganicSchemes (a : AnswerStore) (r : EvalResult) :
    (stepOrganicSchemes a r).eligible = r.eligible := by
  simp only [stepOrganicSchemes]; split_ifs <;> rfl

lemma eligible_stepScSt (a : AnswerStore) (r : EvalResult) :
    (stepScSt a r).eligible = r.eligible := by
  simp only [stepScSt]; split_ifs <;> rfl

lemma eligible_stepSmallMarginal (a : AnswerStore) (r : EvalResult) :
    (stepSmallMarginal a r).eligible = r.eligible := by
  simp only [stepSmallMarginal]; split_ifs <;> rfl

/-- The scheme record is carried through the whole evaluation unchanged. -/
lemma scheme_evalScheme (a : AnswerStore) (s : Scheme) :
    (evalScheme a s).scheme = s := by
  simp [evalScheme, stepInterestLoop_eq, scheme_stepSmallMarginal, scheme_stepScSt,
    scheme_stepOrganicSchemes, scheme_stepPmksy, scheme_stepPmfby, scheme_stepKcc,
    scheme_stepPmkmy, scheme_stepPmkisan]

/-- Closed form of the eligibility verdict: a scheme is ineligible exactly
when one of the three hard-exclusion blocks fires. -/
lemma eligible_evalScheme (a : AnswerStore) (s : Scheme) :
    (evalScheme a s).eligible
      = (!(s.id == "pmkisan" && answerIn a "land_size" ["large", "medium"])
        && !(s.id == "pmkmy"
              && (!answerIn a "age" ["18-30", "30-40"] || answerIn a "land_size" ["large", "medium"]))
        && !(s.id == "kcc" && strAnswer a "farmer_type" == some "landless")) := by
  simp only [evalScheme, stepInterestLoop_eq, eligible_stepSmallMarginal, eligible_stepScSt,
    eligible_stepOrganicSchemes, eligible_stepPmksy, eligible_stepPmfby, eligible_stepKcc,
    eligible_stepPmkmy, eligible_stepPmkisan, scheme_stepSmallMarginal, scheme_stepScSt,
    scheme_stepOrganicSchemes, scheme_stepPmksy, scheme_stepPmfby, scheme_stepKcc,
    scheme_stepPmkmy, scheme_stepPmkisan]
  cases h1 : (s.id == "pmkisan" && answerIn a "land_size" ["large", "medium"]) <;>
    cases h2 : (s.id == "pmkmy"
      && (!answerIn a "age" ["18-30", "30-40"] || answerIn a "land_size" ["large", "medium"])) <;>
    cases h3 : (s.id == "kcc" && strAnswer a "farmer_type" == some "landless") <;>
    simp_all

/-- Closed form of the match score: the sum of the individual bonus blocks. -/
lemma matchScore_evalScheme (a : AnswerStore) (s : Scheme) :
    (evalScheme a s).matchScore
      = (if s.id == "pmkisan" && !answerIn a "land_size" ["large", "medium"] then 20 else 0)
      + (if s.id == "pmkmy" && (interestsOf a).contains "pension" then 30 else 0)
      + (if s.id == "kcc" && (interestsOf a).contains "credit" then 30 else 0)
      + (if s.id == "pmfby" && (interestsOf a).contains "insurance" then 30 else 0)
      + (if s.id == "pmksy" && (interestsOf a).contains "irrigation" then 30 else 0)
      + (if ["pkvy", "gobar"].contains s.id && (interestsOf a).contains "organic" then 30 else 0)
      + (if answerIn a "category" ["sc", "st"] && ["smam", "deds", "midh"].contains s.id then 15 else 0)
      + (if answerIn a "land_size" ["marginal", "small"] then 10 else 0)
      + loopScore (interestsOf a) s.id := by
  simp only [evalScheme, stepInterestLoop_eq, matchScore_stepSmallMarginal, matchScore_stepScSt,
    matchScore_stepOrganicSchemes, matchScore_stepPmksy, matchScore_stepPmfby, matchScore_stepKcc,
    matchScore_stepPmkmy, matchScore_stepPmkisan, scheme_stepSmallMarginal, scheme_stepScSt,
    scheme_stepOrganicSchemes, scheme_stepPmksy, scheme_stepPmfby, scheme_stepKcc,
    scheme_stepPmkmy, scheme_stepPmkisan]
  ring

/-! ### Reasons tracking -/

lemma reasons_stepPmfby (a : AnswerStore) (r : EvalResult) :
    (stepPmfby a r).reasons = r.reasons := by
  simp only [stepPmfby]; split_ifs <;> rfl

lemma reasons_stepPmksy (a : AnswerStore) (r : EvalResult) :
    (stepPmksy a r).reasons = r.reasons := by
  simp only [stepPmksy]; split_ifs <;> rfl

lemma reasons_stepOrganicSchemes (a : AnswerStore) (r : EvalResult) :
    (stepOrganicSchemes a r).reasons = r.reasons := by
  simp only [stepOrganicSchemes]; split_ifs <;> rfl

lemma reasons_stepSmallMarginal (a : AnswerStore) (r : EvalResult) :
    (stepSmallMarginal a r).reasons = r.reasons := by
  simp only [stepSmallMarginal]; split_ifs <;> rfl

lemma reasons_mono_stepScSt (a : AnswerStore) (r : EvalResult) (x : String)
    (h : x ∈ r.reasons) : x ∈ (stepScSt a r).reasons := by
  simp only [stepScSt]; split_ifs <;> simp_all

lemma reasons_mono_stepKcc (a : AnswerStore) (r : EvalResult) (x : String)
    (h : x ∈ r.reasons) : x ∈ (stepKcc a r).reasons := by
  simp only [stepKcc]; split_ifs <;> simp_all

lemma reasons_mono_stepPmkmy (a : AnswerStore) (r : EvalResult) (x : String)
    (h : x ∈ r.reasons) : x ∈ (stepPmkmy a r).reasons := by
  simp only [stepPmkmy]; split_ifs <;> simp_all

lemma mem_land_reason_stepPmkmy (a : AnswerStore) (r : EvalResult)
    (hid : r.scheme.id = "pmkmy")
    (hL : answerIn a "land_size" ["large", "medium"] = true) :
    "Land holding exceeds 2 hectares limit" ∈ (stepPmkmy a r).reasons := by
  simp only [stepPmkmy]; split_ifs <;> simp_all

/-- Membership in the final reasons list, chained down to the two relevant
rule blocks. -/
lemma mem_reasons_evalScheme_of_mem (a : AnswerStore) (s : Scheme) (x : String)
    (h : x ∈ (stepPmkmy a (stepPmkisan a
      { scheme := s, eligible := true, reasons := [], matchScore := 0 })).reasons) :
    x ∈ (evalScheme a s).reasons := by
  simp only [evalScheme, stepInterestLoop_eq, reasons_stepSmallMarginal]
  exact reasons_mono_stepScSt _ _ _ (by
    simp only [reasons_stepOrganicSchemes, reasons_stepPmksy, reasons_stepPmfby]
    exact reasons_mono_stepKcc _ _ _ h)

/-! ### Claim C2 -/

/-- C2: whenever the stored `land_size` answer is the bracket "medium" or
"large", both schemes whose rules exclude those brackets (`pmkisan` and
`pmkmy`) are evaluated ineligible, with the reason naming the land-size
limit appended to their reasons list. -/
theorem land_size_hard_exclusion (a : AnswerStore) (s : Scheme)
    (hL : strAnswer a "land_size" = some "medium" ∨ strAnswer a "land_size" = some "large")
    (hs : s ∈ SCHEMES) (hid : s.id = "pmkisan" ∨ s.id = "pmkmy") :
    (evalScheme a s).eligible = false
      ∧ "Land holding exceeds 2 hectares limit" ∈ (evalScheme a s).reasons := by
  have hland : answerIn a "land_size" ["large", "medium"] = true := by
    rcases hL with h | h <;> simp [answerIn, h, List.contains]
  constructor
  · rw [eligible_evalScheme]
    rcases hid with h | h <;> simp [h, hland]
  · apply mem_reasons_evalScheme_of_mem
    rcases hid with h | h
    · have : "Land holding exceeds 2 hectares limit"
          ∈ (stepPmkisan a { scheme := s, eligible := true, reasons := [], matchScore := 0 }).reasons := by
        simp [stepPmkisan, h, hland]
      exact reasons_mono_stepPmkmy _ _ _ this
    · apply mem_land_reason_stepPmkmy _ _ _ hland
      rw [scheme_stepPmkisan]
      exact h

/-- Witness for C2 at a concrete store with `land_size = "medium"` and the
`pmkisan` scheme. -/
theorem land_size_hard_exclusion_witness :
    (evalScheme [("land_size", AnswerValue.single "medium")]
        { id := "pmkisan", name := "PM-KISAN Samman Nidhi", category := "Subsidy" }).eligible = false
      ∧ "Land holding exceeds 2 hectares limit"
          ∈ (evalScheme [("land_size", AnswerValue.single "medium")]
              { id := "pmkisan", name := "PM-KISAN Samman Nidhi", category := "Subsidy" }).reasons :=
  land_size_hard_exclusion _ _ (Or.inl rfl) (by decide) (Or.inl rfl)

/-! ### Claim C3 -/

/-- C3: `nextEligibilityStep` with the current answer absent, or present as
an empty multi-select array, alerts a validation error and returns with both
the question index and the whole answer store untouched. -/
theorem advance_missing_answer_rejects (w : WizardState) (q : Question)
    (hq : eligibilityQuestions.get? w.eligibilityStep = some q)
    (h : getAnswer w.eligibilityAnswers q.id = none
       ∨ getAnswer w.eligibilityAnswers q.id = some (AnswerValue.multi [])) :
    nextEligibilityStep w = some (StepOutcome.validationError, w) := by
  have hm : answerMissing w.eligibilityAnswers q.id = true := by
    rcases h with h | h <;> simp [answerMissing, h]
  rw [List.get?_eq_getElem?] at hq
  simp [nextEligibilityStep, hq, hm]

/-- Witness for C3 at the freshly started wizard (empty store, question 0). -/
theorem advance_missing_answer_rejects_witness :
    nextEligibilityStep startEligibilityCheck
      = some (StepOutcome.validationError, startEligibilityCheck) :=
  advance_missing_answer_rejects startEligibilityCheck _ rfl (Or.inl rfl)

/-! ### Claim C4 -/

/-- C4: a catalog scheme touched by none of the three hard-exclusion blocks
(every scheme other than `pmkisan`, `pmkmy` and `kcc`) is eligible under
every answer store: the absence of a rule is not a failure. -/
theorem no_rule_schemes_eligible (a : AnswerStore) (s : Scheme) (hs : s ∈ SCHEMES)
    (h1 : s.id ≠ "pmkisan") (h2 : s.id ≠ "pmkmy") (h3 : s.id ≠ "kcc") :
    (evalScheme a s).eligible = true := by
  rw [eligible_evalScheme]
  simp [h1, h2, h3]

/-- Witness for C4 at the empty store and the `soil` scheme. -/
theorem no_rule_schemes_eligible_witness :
    (evalScheme [] { id := "soil", name := "Soil Health Card Scheme", category := "Subsidy" }).eligible
      = true :=
  no_rule_schemes_eligible [] _ (by decide) (by decide) (by decide) (by decide)

/-! ### Claim C6 -/

/-- C6: the match score of every catalog scheme is non-negative for every
answer store: it is a sum of individually non-negative bonus contributions
starting from zero. -/
theorem matchScore_nonneg (a : AnswerStore) (s : Scheme) (hs : s ∈ SCHEMES) :
    0 ≤ (evalScheme a s).matchScore := by
  rw [matchScore_evalScheme]
  have hloop := loopScore_nonneg (interestsOf a) s.id
  split_ifs <;> omega

/-- Witness for C6 at the empty store and the `pmfby` scheme. -/
theorem matchScore_nonneg_witness :
    0 ≤ (evalScheme [] { id := "pmfby", name := "PM Fasal Bima Yojana", category := "Insurance" }).matchScore :=
  matchScore_nonneg [] _ (by decide)

/-! ### Claim C7 -/

/-- C7: the evaluator and scorer pipeline is deterministic: the embedding is
a pure function of the answer store (the source reads no clock and no
randomness), so two runs on the same store produce identical ordered
output. -/
theorem evaluator_scorer_deterministic (answers : AnswerStore) :
    showEligibilityResults answers = showEligibilityResults answers := rfl

/-! ### Claim C9 (corrected) -/

/-- C9 counterexample: referencing a question identifier absent from the
Question Set raises nothing: `saveEligibilityAnswer` stores the value under
the unknown key and returns normally, and `toggleEligibilityOption` creates
a fresh singleton array under the unknown key (`some`, not a thrown
error). -/
theorem unknown_question_cex :
    "nonexistent_question" ∉ questionIds
      ∧ saveEligibilityAnswer [] "nonexistent_question" "x"
          = [("nonexistent_question", AnswerValue.single "x")]
      ∧ toggleEligibilityOption [] "nonexistent_question" "credit"
          = some [("nonexistent_question", AnswerValue.multi ["credit"])] := by
  refine ⟨by decide, rfl, by simp [toggleEligibilityOption, getAnswer, toggleValue, setAnswer]⟩

/-- C9 as amended: a call of `saveEligibilityAnswer` / `selectEligibilityOption`
or `toggleEligibilityOption` with a question identifier absent from the
Question Set silently succeeds: the answer is stored under the unknown
identifier and no error of any kind is signalled. -/
theorem unknown_question_silently_succeeds (st : AnswerStore) (qid v : String)
    (h : qid ∉ questionIds) (hn : getAnswer st qid = none) :
    getAnswer (saveEligibilityAnswer st qid v) qid = some (AnswerValue.single v)
      ∧ selectEligibilityOption st qid v = saveEligibilityAnswer st qid v
      ∧ toggleEligibilityOption st qid v
          = some (setAnswer st qid (AnswerValue.multi [v])) := by
  refine ⟨getAnswer_setAnswer_self st qid (AnswerValue.single v), rfl, ?_⟩
  simp [toggleEligibilityOption, hn, toggleValue]

/-- Witness for the amended C9 at the empty store and an identifier outside
the Question Set. -/
theorem unknown_question_silently_succeeds_witness :
    getAnswer (saveEligibilityAnswer [] "nonexistent_question" "x") "nonexistent_question"
        = some (AnswerValue.single "x")
      ∧ selectEligibilityOption [] "nonexistent_question" "x"
          = saveEligibilityAnswer [] "nonexistent_question" "x"
      ∧ toggleEligibilityOption [] "nonexistent_question" "x"
          = some (setAnswer [] "nonexistent_question" (AnswerValue.multi ["x"])) :=
  unknown_question_silently_succeeds [] "nonexistent_question" "x" (by decide) rfl

/-! ### Claim C10 -/

/-- The answer store of the C10 scenario: age 60+, small land holding,
pension among the interests. -/
def c10Answers : AnswerStore :=
  [("age", AnswerValue.single "60+"),
   ("land_size", AnswerValue.single "small"),
   ("interests", AnswerValue.multi ["pension"])]

/-- C10: eligibility and match score are computed independently: in the C10
scenario the results reported by `showEligibilityResults` contain the
`pmkmy` scheme with `eligible = false` and a strictly positive match score
(its value is 60). -/
theorem ineligible_with_positive_score :
    ∃ r ∈ showEligibilityResults c10Answers,
      r.scheme.id = "pmkmy" ∧ r.eligible = false ∧ r.matchScore = 60 := by
  refine ⟨evalScheme c10Answers
    { id := "pmkmy", name := "PM Kisan Maandhan Yojana", category := "Pension" }, ?_, ?_, ?_, ?_⟩
  · simp only [showEligibilityResults, List.mem_mergeSort]
    exact List.mem_map_of_mem _ (by decide)
  · rw [scheme_evalScheme]
  · rw [eligible_evalScheme]; decide
  · rw [matchScore_evalScheme]; decide

/-! ### Claim C5 -/

lemma contains_mono_append (l : List String) (v x : String) (h : l.contains x = true) :
    (l ++ [v]).contains x = true := by
  simp only [List.contains] at h ⊢
  rw [List.elem_iff] at h ⊢
  simp [h]

lemma ite_mono_int (b c : Bool) (k : Int) (hk : 0 ≤ k) (h : b = true → c = true) :
    (if b then k else 0) ≤ (if c then k else 0) := by
  cases b <;> cases c <;> simp_all

lemma and_contains_mono (b : Bool) (l : List String) (v x : String)
    (h : (b && l.contains x) = true) : (b && (l ++ [v]).contains x) = true := by
  rw [Bool.and_eq_true] at h ⊢
  exact ⟨h.1, contains_mono_append l v x h.2⟩

lemma interestsOf_setAnswer (a : AnswerStore) (vs : List String) :
    interestsOf (setAnswer a "interests" (AnswerValue.multi vs)) = vs := by
  simp [interestsOf, getAnswer_setAnswer_self]

lemma loopScore_snoc (l : List String) (i sid : String) :
    loopScore (l ++ [i]) sid
      = loopScore l sid + (if (interestMap i).contains sid then (20 : Int) else 0) := by
  rw [loopScore_append]; simp [loopScore]

/-- C5: with `interests` currently stored as the array `is` and `i` a fresh
interest, toggling `i` appends it to the interest array, the resulting match
score of every catalog scheme never decreases, and the score of every scheme
tagged with `i` in the interest map strictly increases. -/
theorem matchScore_monotone_in_interests (a : AnswerStore) (is : List String)
    (i : String) (s : Scheme) (hs : s ∈ SCHEMES)
    (hint : getAnswer a "interests" = some (AnswerValue.multi is))
    (hnew : i ∉ is) :
    toggleEligibilityOption a "interests" i
        = some (setAnswer a "interests" (AnswerValue.multi (is ++ [i])))
      ∧ (evalScheme a s).matchScore
          ≤ (evalScheme (setAnswer a "interests" (AnswerValue.multi (is ++ [i]))) s).matchScore
      ∧ (s.id ∈ interestMap i →
          (evalScheme a s).matchScore
            < (evalScheme (setAnswer a "interests" (AnswerValue.multi (is ++ [i]))) s).matchScore) := by
  have htog : toggleEligibilityOption a "interests" i
      = some (setAnswer a "interests" (AnswerValue.multi (is ++ [i]))) := by
    simp [toggleEligibilityOption, hint, toggleValue, hnew]
  have hrw1 := matchScore_evalScheme a s
  have hrw2 := matchScore_evalScheme (setAnswer a "interests" (AnswerValue.multi (is ++ [i]))) s
  rw [answerIn_setAnswer_ne a "interests" "land_size" (AnswerValue.multi (is ++ [i]))
        ["large", "medium"] (by decide),
      answerIn_setAnswer_ne a "interests" "land_size" (AnswerValue.multi (is ++ [i]))
        ["marginal", "small"] (by decide),
      answerIn_setAnswer_ne a "interests" "category" (AnswerValue.multi (is ++ [i]))
        ["sc", "st"] (by decide),
      interestsOf_setAnswer, loopScore_snoc] at hrw2
  rw [show interestsOf a = is by simp [interestsOf, hint]] at hrw1
  have m2 := ite_mono_int (s.id == "pmkmy" && is.contains "pension")
    (s.id == "pmkmy" && (is ++ [i]).contains "pension") 30 (by norm_num)
    (and_contains_mono _ _ _ _)
  have m3 := ite_mono_int (s.id == "kcc" && is.contains "credit")
    (s.id == "kcc" && (is ++ [i]).contains "credit") 30 (by norm_num)
    (and_contains_mono _ _ _ _)
  have m4 := ite_mono_int (s.id == "pmfby" && is.contains "insurance")
    (s.id == "pmfby" && (is ++ [i]).contains "insurance") 30 (by norm_num)
    (and_contains_mono _ _ _ _)
  have m5 := ite_mono_int (s.id == "pmksy" && is.contains "irrigation")
    (s.id == "pmksy" && (is ++ [i]).contains "irrigation") 30 (by norm_num)
    (and_contains_mono _ _ _ _)
  have m6 := ite_mono_int (["pkvy", "gobar"].contains s.id && is.contains "organic")
    (["pkvy", "gobar"].contains s.id && (is ++ [i]).contains "organic") 30 (by norm_num)
    (and_contains_mono _ _ _ _)
  refine ⟨htog, ?_, ?_⟩
  · rw [hrw1, hrw2]
    have hlast : (0 : Int) ≤ (if (interestMap i).contains s.id then (20 : Int) else 0) := by
      split_ifs <;> norm_num
    linarith
  · intro htag
    have htagb : (interestMap i).contains s.id = true := by
      simp only [List.contains]
      rw [List.elem_iff]
      exact htag
    rw [hrw1, hrw2, htagb]
    simp only [if_true]
    linarith

/-- Witness for C5: empty interest set, adding "pension", the `pmkmy`
scheme. -/
theorem matchScore_monotone_in_interests_witness :
    toggleEligibilityOption [("interests", AnswerValue.multi [])] "interests" "pension"
        = some (setAnswer [("interests", AnswerValue.multi [])] "interests"
            (AnswerValue.multi ([] ++ ["pension"])))
      ∧ (evalScheme [("interests", AnswerValue.multi [])]
            { id := "pmkmy", name := "PM Kisan Maandhan Yojana", category := "Pension" }).matchScore
          ≤ (evalScheme (setAnswer [("interests", AnswerValue.multi [])] "interests"
                (AnswerValue.multi ([] ++ ["pension"])))
              { id := "pmkmy", name := "PM Kisan Maandhan Yojana", category := "Pension" }).matchScore
      ∧ (({ id := "pmkmy", name := "PM Kisan Maandhan Yojana", category := "Pension" } : Scheme).id
            ∈ interestMap "pension" →
          (evalScheme [("interests", AnswerValue.multi [])]
              { id := "pmkmy", name := "PM Kisan Maandhan Yojana", category := "Pension" }).matchScore
            < (evalScheme (setAnswer [("interests", AnswerValue.multi [])] "interests"
                  (AnswerValue.multi ([] ++ ["pension"])))
                { id := "pmkmy", name := "PM Kisan Maandhan Yojana", category := "Pension" }).matchScore) :=
  matchScore_monotone_in_interests [("interests", AnswerValue.multi [])] [] "pension"
    { id := "pmkmy", name := "PM Kisan Maandhan Yojana", category := "Pension" }
    (by decide) rfl (by decide)

/-! ### Claim C8 -/

/-- A sequence of `toggleEligibilityOption` calls, run left to right;
`none` as soon as one of them would throw. -/
def applyToggles (st : AnswerStore) : List (String × String) → Option AnswerStore
  | [] => some st
  | (qid, v) :: rest =>
      match toggleEligibilityOption st qid v with
      | none => none
      | some st2 => applyToggles st2 rest

/-- The stored multi-select array under a question id (empty when absent). -/
def lookupMulti (st : AnswerStore) (q : String) : List String :=
  match getAnswer st q with
  | some (AnswerValue.multi vs) => vs
  | _ => []

/-- Invariant of toggle-built stores: every entry (current or shadowed) is a
duplicate-free array. -/
def AllMultiNodup (st : AnswerStore) : Prop :=
  ∀ p ∈ st, ∃ vs, p.2 = AnswerValue.multi vs ∧ vs.Nodup

lemma mem_of_getAnswer (st : AnswerStore) (q : String) (av : AnswerValue)
    (h : getAnswer st q = some av) : (q, av) ∈ st := by
  simp only [getAnswer, Option.map_eq_some'] at h
  obtain ⟨p, hf, hv⟩ := h
  have hq : p.1 = q := by
    have := List.find?_some hf
    simpa using this
  have hm := List.mem_of_find?_eq_some hf
  cases p
  simp_all

lemma lookupMulti_nodup (st : AnswerStore) (q : String) (h : AllMultiNodup st) :
    (lookupMulti st q).Nodup := by
  unfold lookupMulti
  cases hg : getAnswer st q with
  | none => simp
  | some av =>
      cases av with
      | single s => simp
      | multi vs =>
          obtain ⟨vs2, hvs2, hnd⟩ := h _ (mem_of_getAnswer st q _ hg)
          cases hvs2
          exact hnd

lemma nodup_toggleValue (vs : List String) (v : String) (h : vs.Nodup) :
    (toggleValue vs v).Nodup := by
  unfold toggleValue
  split_ifs with hv
  · exact h.erase v
  · simp [List.nodup_append, h, hv]

lemma allMultiNodup_setAnswer (st : AnswerStore) (q : String) (vs : List String)
    (h : AllMultiNodup st) (hvs : vs.Nodup) :
    AllMultiNodup (setAnswer st q (AnswerValue.multi vs)) := by
  intro p hp
  rcases List.mem_cons.mp hp with rfl | hp2
  · exact ⟨vs, rfl, hvs⟩
  · exact h p hp2

/-- On a toggle-built store, one toggle call always succeeds and rewrites the
stored array to `toggleValue` of the current array. -/
lemma toggle_char (st : AnswerStore) (qid v : String) (h : AllMultiNodup st) :
    toggleEligibilityOption st qid v
      = some (setAnswer st qid (AnswerValue.multi (toggleValue (lookupMulti st qid) v))) := by
  unfold toggleEligibilityOption lookupMulti
  cases hg : getAnswer st qid with
  | none => simp
  | some av =>
      cases av with
      | single s =>
          obtain ⟨vs2, hvs2, _⟩ := h _ (mem_of_getAnswer st qid _ hg)
          simp at hvs2
      | multi vs => simp

lemma toggle_preserves (st : AnswerStore) (qid v : String) (h : AllMultiNodup st) :
    AllMultiNodup (setAnswer st qid (AnswerValue.multi (toggleValue (lookupMulti st qid) v))) :=
  allMultiNodup_setAnswer st qid _ h
    (nodup_toggleValue _ v (lookupMulti_nodup st qid h))

lemma applyToggles_ok (ops : List (String × String)) :
    ∀ st : AnswerStore, AllMultiNodup st →
      ∃ st2, applyToggles st ops = some st2 ∧ AllMultiNodup st2 := by
  induction ops with
  | nil => exact fun st h => ⟨st, rfl, h⟩
  | cons op rest ih =>
      intro st h
      obtain ⟨qid, v⟩ := op
      obtain ⟨st2, h2, hinv2⟩ := ih _ (toggle_preserves st qid v h)
      exact ⟨st2, by simp [applyToggles, toggle_char st qid v h, h2], hinv2⟩

lemma lookupMulti_setAnswer_self (st : AnswerStore) (q : String) (vs : List String) :
    lookupMulti (setAnswer st q (AnswerValue.multi vs)) q = vs := by
  simp [lookupMulti, getAnswer_setAnswer_self]

lemma toggleValue_twice_perm (l : List String) (v : String) (h : l.Nodup) :
    (toggleValue (toggleValue l v) v).Perm l := by
  by_cases hv : v ∈ l
  · have h1 : toggleValue l v = l.erase v := by simp [toggleValue, hv]
    have hv2 : v ∉ l.erase v := h.not_mem_erase
    rw [h1, toggleValue, if_neg hv2]
    exact (List.perm_append_singleton v (l.erase v)).trans (List.perm_cons_erase hv).symm
  · have h1 : toggleValue l v = l ++ [v] := by simp [toggleValue, hv]
    have hv2 : v ∈ l ++ [v] := by simp
    rw [h1, toggleValue, if_pos hv2, List.erase_append_right _ hv]
    simp

/-- C8: starting from the empty answer store, after any sequence of
`toggleEligibilityOption` calls every stored multi-select array is free of
duplicates; a further toggle removes the value if present and appends it if
absent; and toggling the same value twice in succession leaves the stored
set unchanged (the array is a permutation of the original). -/
theorem toggleMulti_set_semantics (ops : List (String × String)) (qid v : String) :
    ∃ st, applyToggles [] ops = some st
      ∧ (lookupMulti st qid).Nodup
      ∧ ∃ st1 st2, toggleEligibilityOption st qid v = some st1
          ∧ toggleEligibilityOption st1 qid v = some st2
          ∧ lookupMulti st1 qid
              = (if v ∈ lookupMulti st qid then (lookupMulti st qid).erase v
                 else lookupMulti st qid ++ [v])
          ∧ (lookupMulti st2 qid).Perm (lookupMulti st qid) := by
  have hemp : AllMultiNodup ([] : AnswerStore) := by intro p hp; simp at hp
  obtain ⟨st, hst, hinv⟩ := applyToggles_ok ops [] hemp
  refine ⟨st, hst, lookupMulti_nodup st qid hinv, ?_⟩
  have h1 := toggle_char st qid v hinv
  have hinv1 := toggle_preserves st qid v hinv
  have h2 := toggle_char _ qid v hinv1
  refine ⟨_, _, h1, h2, ?_, ?_⟩
  · rw [lookupMulti_setAnswer_self, toggleValue]
  · rw [lookupMulti_setAnswer_self, lookupMulti_setAnswer_self]
    exact toggleValue_twice_perm _ v (lookupMulti_nodup st qid hinv)

/-! ### Claim C1 -/

lemma resultLE_trans (x y z : EvalResult) (h1 : resultLE x y = true)
    (h2 : resultLE y z = true) : resultLE x z = true := by
  simp only [resultLE] at h1 h2 ⊢
  cases hx : x.eligible <;> cases hy : y.eligible <;> cases hz : z.eligible <;>
    simp_all <;> omega

lemma resultLE_total (x y : EvalResult) : (resultLE x y || resultLE y x) = true := by
  simp only [resultLE]
  cases hx : x.eligible <;> cases hy : y.eligible <;> simp_all <;> omega

lemma pair_sublist_of_mem {α : Type} {l : List α} {x y : α} (hx : x ∈ l) (hy : y ∈ l)
    (hne : x ≠ y) : [x, y].Sublist l ∨ [y, x].Sublist l := by
  induction l with
  | nil => simp at hx
  | cons h t ih =>
      rcases List.mem_cons.mp hx with rfl | hx2
      · have hy2 : y ∈ t := by
          rcases List.mem_cons.mp hy with rfl | hy2
          · exact absurd rfl hne
          · exact hy2
        exact Or.inl ((List.singleton_sublist.mpr hy2).cons₂ x)
      · rcases List.mem_cons.mp hy with rfl | hy2
        · exact Or.inr ((List.singleton_sublist.mpr hx2).cons₂ y)
        · rcases ih hx2 hy2 with h1 | h1
          · exact Or.inl (h1.cons h)
          · exact Or.inr (h1.cons h)

lemma pair_sublist_antisymm {α : Type} {l : List α} {x y : α} (hnd : l.Nodup)
    (h1 : [x, y].Sublist l) (h2 : [y, x].Sublist l) : x = y := by
  induction l with
  | nil => simp at h1
  | cons h t ih =>
      rw [List.nodup_cons] at hnd
      rcases List.sublist_cons_iff.mp h1 with h1t | ⟨r1, hr1, hs1⟩
      · rcases List.sublist_cons_iff.mp h2 with h2t | ⟨r2, hr2, hs2⟩
        · exact ih hnd.2 h1t h2t
        · have hyh : y = h := by injection hr2
          have : y ∈ t := h1t.subset (by simp)
          exact absurd (hyh ▸ this) hnd.1
      · rcases List.sublist_cons_iff.mp h2 with h2t | ⟨r2, hr2, hs2⟩
        · have hxh : x = h := by injection hr1
          have : x ∈ t := h2t.subset (by simp)
          exact absurd (hxh ▸ this) hnd.1
        · have hxh : x = h := by injection hr1
          have hyh : y = h := by injection hr2
          rw [hxh, hyh]

/-- The evaluated-but-unsorted results list (the `results` array before the
`sort` call). -/
def rawResults (answers : AnswerStore) : List EvalResult :=
  SCHEMES.map (fun s => evalScheme answers s)

lemma mem_rawResults (answers : AnswerStore) (r : EvalResult)
    (h : r ∈ rawResults answers) :
    r.scheme ∈ SCHEMES ∧ r = evalScheme answers r.scheme := by
  obtain ⟨s, hs, hr⟩ := List.mem_map.mp h
  subst hr
  rw [scheme_evalScheme]
  exact ⟨hs, rfl⟩

lemma nodup_rawResults (answers : AnswerStore) : (rawResults answers).Nodup := by
  have hids : (SCHEMES.map (fun s => s.id)).Nodup := by decide
  have h1 : SCHEMES.Pairwise (fun a b => a.id ≠ b.id) := by
    rw [List.Nodup, List.pairwise_map] at hids
    exact hids
  have h2 : SCHEMES.Pairwise
      (fun a b => evalScheme answers a ≠ evalScheme answers b) := by
    refine h1.imp ?_
    intro a b hab heq
    apply hab
    have := congrArg (fun r => r.scheme.id) heq
    simpa [scheme_evalScheme] using this
  rw [rawResults, List.Nodup, List.pairwise_map]
  exact h2

/-- Intended ordering of two adjacent-or-not entries of the final list: the
first is strictly more eligible, or equally eligible with strictly larger
score, or tied in both and declared earlier in the Scheme Catalog. -/
def beforeOK (a b : EvalResult) : Prop :=
  (a.eligible = true ∧ b.eligible = false)
  ∨ (a.eligible = b.eligible ∧ b.matchScore < a.matchScore)
  ∨ (a.eligible = b.eligible ∧ a.matchScore = b.matchScore
      ∧ [a.scheme, b.scheme].Sublist SCHEMES)

/-- C1: the completed results list is a rearrangement of the evaluation of
the entire Scheme Catalog, ordered with all eligible schemes before all
ineligible ones, then by descending match score, and any two results tied on
both keys appear in the relative order in which their schemes are declared
in the Scheme Catalog (the sort is stable). -/
theorem results_sorted_stable (answers : AnswerStore) :
    (showEligibilityResults answers).Perm (rawResults answers)
      ∧ (showEligibilityResults answers).Pairwise beforeOK := by
  refine ⟨List.mergeSort_perm (rawResults answers) resultLE, ?_⟩
  rw [List.pairwise_iff_forall_sublist]
  intro a b hab
  have hout : showEligibilityResults answers = (rawResults answers).mergeSort resultLE := rfl
  rw [hout] at hab
  have hsorted := List.sorted_mergeSort resultLE_trans resultLE_total (rawResults answers)
  have hle : resultLE a b = true := List.pairwise_iff_forall_sublist.mp hsorted hab
  have hnd_out : ((rawResults answers).mergeSort resultLE).Nodup :=
    ((List.mergeSort_perm (rawResults answers) resultLE).nodup_iff).mpr
      (nodup_rawResults answers)
  have hne : a ≠ b := by
    have := hab.nodup hnd_out
    simp [List.nodup_cons] at this
    exact this
  by_cases hba : resultLE b a = true
  · -- both directions of the comparator hold: a tie on both keys
    have helig : a.eligible = b.eligible := by
      simp only [resultLE] at hle hba
      cases hx : a.eligible <;> cases hy : b.eligible <;> simp_all
    have hms : a.matchScore = b.matchScore := by
      simp only [resultLE, helig, bne_self_eq_false, Bool.false_eq_true, if_false,
        decide_eq_true_eq] at hle hba
      omega
    have hain : a ∈ rawResults answers := List.mem_mergeSort.mp (hab.subset (by simp))
    have hbin : b ∈ rawResults answers := List.mem_mergeSort.mp (hab.subset (by simp))
    obtain ⟨hamem, haeq⟩ := mem_rawResults answers a hain
    obtain ⟨hbmem, hbeq⟩ := mem_rawResults answers b hbin
    have hsne : a.scheme ≠ b.scheme := by
      intro hss
      exact hne (by rw [haeq, hbeq, hss])
    rcases pair_sublist_of_mem hamem hbmem hsne with hgood | hbad
    · exact Or.inr (Or.inr ⟨helig, hms, hgood⟩)
    · exfalso
      have hmap : [b, a].Sublist (rawResults answers) := by
        have := hbad.map (fun s => evalScheme answers s)
        simpa [rawResults, ← haeq, ← hbeq] using this
      have hout2 : [b, a].Sublist ((rawResults answers).mergeSort resultLE) :=
        List.pair_sublist_mergeSort resultLE_trans resultLE_total hba hmap
      exact hne (pair_sublist_antisymm hnd_out hab hout2)
  · -- the comparator is strict: a strictly precedes b on the keys
    by_cases helig : a.eligible = b.eligible
    · have h1 : b.matchScore ≤ a.matchScore := by
        simp only [resultLE, helig, bne_self_eq_false] at hle
        simpa using hle
      have h2 : ¬ a.matchScore ≤ b.matchScore := by
        intro hc
        apply hba
        simp only [resultLE, helig, bne_self_eq_false]
        simpa using hc
      exact Or.inr (Or.inl ⟨helig, by omega⟩)
    · have hx : a.eligible = true := by
        simp only [resultLE] at hle
        rw [if_pos] at hle
        · exact hle
        · simpa [bne_iff_ne] using helig
      have hy : b.eligible = false := by
        cases hyv : b.eligible
        · rfl
        · exact absurd (hx.trans hyv.symm) helig
      exact Or.inl ⟨hx, hy⟩

end AgriSahayak
